import Mathlib

/-!
Verification of the capture-enhance-analyze-persist pipeline of the
fashion-fast-ai repository.

The definitions below are a shallow embedding of the relevant source code:

* `generateUKPricing` embeds the pricing heuristic of the server routes file
  (function `generateUKPricing`); the two calls to `Math.random` are passed
  in as explicit rational parameters `j1` and `j2`.
* `beginCheck`, `processEvents`, `mkDraft` and `proceedToAnalyze` embed the
  client function `proceedToAnalyze` of `upload.tsx` (precondition checks,
  server-sent-event consumption loop, draft construction, error handling).
* `analyzeStreamRoute` embeds the event emission logic of the
  `/api/analyze-stream` server route; `JSON.parse` is an external platform
  primitive and is passed in as an opaque parameter `jsonParse`.
* `addImage`, `UStep` and `Reachable` embed the image-session state machine
  of `upload.tsx` (`capturePhoto` / `addImageFromResult` /
  `removeImage` / the enhancement completion callback / the
  original-versus-enhanced selection toggle).

JavaScript semantics kept faithfully: truthiness of strings (the empty
string is falsy), `x || d` defaulting (0 and "" fall back to the default),
`Math.round` as floor of x + 1/2, first-match iteration over the keyword
tables, and the inner catch of the event loop that swallows messages
containing "JSON".
-/

/-- JavaScript truthiness of a nullable string: null and "" are falsy. -/
def jsTruthyStr (v : Option String) : Bool :=
  match v with
  | none => false
  | some s => !s.isEmpty

/-- JavaScript `v || d` for a nullable string field: null and "" give `d`. -/
def jsOrStr (v : Option String) (d : String) : String :=
  match v with
  | none => d
  | some s => if s.isEmpty then d else s

/-- JavaScript `v || d` for a nullable number field: null and 0 give `d`. -/
def jsOrInt (v : Option ℤ) (d : ℤ) : ℤ :=
  match v with
  | none => d
  | some x => if x = 0 then d else x

/-- Contiguous-sublist (substring) test on character lists. -/
def charsInfix : List Char → List Char → Bool
  | needle, [] => needle.isEmpty
  | needle, c :: t => needle.isPrefixOf (c :: t) || charsInfix needle t

/-- JavaScript `hay.includes(needle)`: substring test. -/
def substrOf (needle hay : String) : Bool :=
  charsInfix needle.data hay.data

/-- JavaScript `toLowerCase` (ASCII letters, which is all the tables use). -/
def toLowerStr (s : String) : String :=
  s.map Char.toLower

/-- JavaScript `Math.round`: half-up rounding, i.e. floor of x + 1/2. -/
def jsRound (x : ℚ) : ℤ :=
  ⌊x + 1/2⌋

/- ## Pricing estimator (server routes file, `generateUKPricing`) -/

/-- The brand keyword table, in configuration order (first match wins). -/
def brandPrices : List (String × ℚ) :=
  [("nike", 22), ("adidas", 20), ("zara", 12), ("h&m", 8), ("gucci", 95),
   ("prada", 85), ("ralph lauren", 30), ("levi", 18), ("uniqlo", 10),
   ("gap", 9), ("north face", 35), ("patagonia", 40), ("carhartt", 28),
   ("tommy hilfiger", 25), ("superdry", 16), ("primark", 5), ("asos", 8),
   ("river island", 10), ("topshop", 12), ("ted baker", 25),
   ("burberry", 75), ("barbour", 45)]

/-- The condition multiplier table, in configuration order. -/
def conditionMultipliers : List (String × ℚ) :=
  [("new with tags", 1), ("like new", 85/100), ("very good", 7/10),
   ("good", 55/100), ("satisfactory", 4/10)]

/-- Result of the pricing estimator. -/
structure Pricing where
  quickSellPrice : ℤ
  maxProfitPrice : ℤ
  sellProbability : ℤ
deriving DecidableEq

/-- `generateUKPricing(brand, condition)` with the two `Math.random()*5` and
`Math.random()*20` jitter terms passed in as `j1` and `j2`. -/
def generateUKPricing (brand condition : String) (j1 j2 : ℚ) : Pricing :=
  let brandKey := toLowerStr brand
  let basePrice : ℚ :=
    ((brandPrices.find? (fun p => substrOf p.1 brandKey)).map (fun p => p.2)).getD 15
  let condMult : ℚ :=
    ((conditionMultipliers.find? (fun p => substrOf p.1 (toLowerStr condition))).map
      (fun p => p.2)).getD (7/10)
  let maxProfit : ℤ := max 3 (jsRound (basePrice * condMult + j1))
  let quickSell : ℤ := max 2 (jsRound ((maxProfit : ℚ) * (65/100)))
  let baseProbability : ℤ :=
    min 99 (max 15 (jsRound (60 * condMult + j2 + (if basePrice > 20 then 10 else 0))))
  ⟨quickSell, maxProfit, baseProbability⟩

/- ## Data model (`upload.tsx` state and `lib/types` shapes) -/

/-- One captured photo within the session (`ImageItem`). -/
structure ImageItem where
  id : String
  originalUri : String
  originalBase64 : Option String
  enhancedUri : Option String
  enhancedBase64 : Option String
  enhancing : Bool
  enhanceFailed : Bool
deriving DecidableEq

instance : Inhabited ImageItem :=
  ⟨⟨"", "", none, none, none, false, false⟩⟩

/-- The `Step` union of `upload.tsx`. -/
inductive Step where
  | capture
  | enhancing
  | review
  | analyzing
  | result
deriving DecidableEq

/-- The persisted `ListingDraft` record. -/
structure ListingDraft where
  id : String
  imageUri : String
  imageUris : List String
  brand : String
  category : String
  title : String
  material : String
  condition : String
  conditionScore : String
  flaws : String
  description : String
  sellProbability : ℤ
  quickSellPrice : ℤ
  maxProfitPrice : ℤ
  suggestedPrice : ℤ
  createdAt : ℤ
deriving DecidableEq

/-- The structured object obtained from parsing the raw model output
(every field may be absent in a degenerate response). -/
structure Parsed where
  brand : Option String
  category : Option String
  title : Option String
  material : Option String
  condition : Option String
  conditionScore : Option String
  flaws : Option String
  description : Option String
  sellProbability : Option ℤ
  quickSellPrice : Option ℤ
  maxProfitPrice : Option ℤ
  suggestedPrice : Option ℤ
deriving DecidableEq

/-- The terminal result object assembled by the server route
(`finalResult = { ...parsed, ...pricing, suggestedPrice }`). -/
structure FinalResult where
  brand : Option String
  category : Option String
  title : Option String
  material : Option String
  condition : Option String
  conditionScore : Option String
  flaws : Option String
  description : Option String
  sellProbability : Option ℤ
  quickSellPrice : Option ℤ
  maxProfitPrice : Option ℤ
  suggestedPrice : Option ℤ
deriving DecidableEq

/-- One parsed server-sent event: `data: {delta?, result?, error?, done}`. -/
structure Event where
  delta : Option String
  result : Option FinalResult
  error : Option String
  done : Bool
deriving DecidableEq

/-- The in-progress session state of the upload screen. -/
structure Session where
  step : Step
  images : List ImageItem
  selectedIdx : Nat
  useEnhanced : List (String × Bool)
  result : Option ListingDraft
  error : Option String
  streamingText : String
deriving DecidableEq

/-- The request actually sent to the analysis endpoint. -/
structure AnalyzeCall where
  images : List String
  apiKey : String
deriving DecidableEq

/-- Outcome of the `fetch` to `/api/analyze-stream` as seen by the client. -/
inductive FetchResp where
  | httpError (text : String)
  | stream (events : List Event)
deriving DecidableEq

/-- The precondition failures of starting an analysis. -/
inductive BeginError where
  | noImages
  | enhancementPending
  | missingCredential
deriving DecidableEq

/-- Capacity failure of adding a photo. -/
inductive AddError where
  | capacityExceeded
deriving DecidableEq

/- ## Selection-flag map (`useEnhanced` record, JS object semantics) -/

/-- Read `useEnhanced[id]`: a missing key is undefined, hence falsy. -/
def lookupFlag (m : List (String × Bool)) (id : String) : Bool :=
  (List.lookup id m).getD false

/-- Write `{ ...prev, [id]: b }`: the newest binding wins on lookup. -/
def setFlag (m : List (String × Bool)) (id : String) (b : Bool) :
    List (String × Bool) :=
  (id, b) :: m

/-- `delete next[id]`. -/
def eraseFlag (m : List (String × Bool)) (id : String) :
    List (String × Bool) :=
  m.filter (fun p => p.1 ≠ id)

/- ## Client orchestrator (`proceedToAnalyze` in `upload.tsx`) -/

/-- The precondition checks at the top of `proceedToAnalyze`: empty session,
outstanding enhancement, missing credential — all before any network call. -/
def beginCheck (images : List ImageItem) (apiKey : Option String) :
    Option BeginError :=
  if images.isEmpty then some BeginError.noImages
  else if images.any (fun img => img.enhancing) then some BeginError.enhancementPending
  else if jsTruthyStr apiKey then none
  else some BeginError.missingCredential

/-- The per-event body of the streaming loop once the event raised no error:
append a truthy delta to the accumulated text; record the result of a
`done` event that carries one. -/
def applyEvent (e : Event) (st : String) (fr : Option FinalResult) :
    String × Option FinalResult :=
  let st' := match e.delta with
    | some d => if d.isEmpty then st else st ++ d
    | none => st
  let fr' := if e.done && e.result.isSome then e.result else fr
  (st', fr')

/-- The streaming consumption loop of `proceedToAnalyze`: an event carrying a
truthy `error` is thrown; the inner catch swallows it again when its message
contains "JSON" (the guard meant for line-parse failures), otherwise it
aborts the loop. Returns the accumulated text and the recorded terminal
result, or the aborting message together with the text accumulated so far. -/
def processEvents :
    List Event → String → Option FinalResult →
    Except (String × String) (String × Option FinalResult)
  | [], st, fr => Except.ok (st, fr)
  | e :: rest, st, fr =>
    match e.error with
    | some m =>
      if m.isEmpty then
        processEvents rest (applyEvent e st fr).1 (applyEvent e st fr).2
      else if substrOf "JSON" m then processEvents rest st fr
      else Except.error (m, st)
    | none => processEvents rest (applyEvent e st fr).1 (applyEvent e st fr).2

/-- Per image, the display reference persisted in the draft: the enhanced
reference exactly when the selection flag is set and an enhanced reference
exists, otherwise the original reference. -/
def allUris (images : List ImageItem) (flags : List (String × Bool)) :
    List String :=
  images.map (fun img =>
    if lookupFlag flags img.id && jsTruthyStr img.enhancedUri then
      img.enhancedUri.getD ""
    else img.originalUri)

/-- Draft construction from the terminal result, with the field defaulting
chain of `proceedToAnalyze` (`finalResult.f || default`). -/
def mkDraft (images : List ImageItem) (flags : List (String × Bool))
    (fr : FinalResult) (newId : String) (now : ℤ) : ListingDraft :=
  let primaryImg := images.headI
  let usePrimary := lookupFlag flags primaryImg.id
  let primaryUri :=
    if usePrimary && jsTruthyStr primaryImg.enhancedUri then
      primaryImg.enhancedUri.getD ""
    else primaryImg.originalUri
  { id := newId
    imageUri := primaryUri
    imageUris := allUris images flags
    brand := jsOrStr fr.brand "Unknown"
    category := jsOrStr fr.category "Clothing"
    title := jsOrStr fr.title "Untitled"
    material := jsOrStr fr.material "Unknown"
    condition := jsOrStr fr.condition "Good"
    conditionScore := jsOrStr fr.conditionScore (jsOrStr fr.condition "Good")
    flaws := jsOrStr fr.flaws "No visible flaws detected"
    description := jsOrStr fr.description ""
    sellProbability := jsOrInt fr.sellProbability 50
    quickSellPrice := jsOrInt fr.quickSellPrice 5
    maxProfitPrice := jsOrInt fr.maxProfitPrice 10
    suggestedPrice := jsOrInt fr.maxProfitPrice 10
    createdAt := now }

/-- The outer catch: `msg.includes(":") ? msg.split(": ").slice(1).join(": ") : msg`. -/
def errDisplay (msg : String) : String :=
  if substrOf ":" msg then String.intercalate ": " ((msg.splitOn ": ").tail)
  else msg

/-- The outer catch of `proceedToAnalyze`: record the (possibly trimmed)
message and return the session to the review stage. -/
def failState (s : Session) (m : String) : Session :=
  let msg := if m.isEmpty then "Analysis failed. Please try again." else m
  { s with error := some (errDisplay msg), step := Step.review }

/-- Full embedding of `proceedToAnalyze`: precondition checks, request
construction from the original image bytes, stream consumption, draft
construction, and failure handling. The draft id and timestamp are passed
in (`Crypto.randomUUID()` / `Date.now()`); the second component records the
network call actually issued, if any. -/
def proceedToAnalyze (s : Session) (apiKey : Option String) (resp : FetchResp)
    (newId : String) (now : ℤ) : Session × Option AnalyzeCall :=
  match beginCheck s.images apiKey with
  | some BeginError.noImages => (s, none)
  | some BeginError.enhancementPending => (s, none)
  | some BeginError.missingCredential =>
      ({ s with error := some "Please set your OpenAI API key in Settings first." }, none)
  | none =>
    let s1 : Session := { s with step := Step.analyzing, error := none, streamingText := "" }
    let originalImages := s.images.filterMap (fun img => img.originalBase64)
    if originalImages.isEmpty then
      ({ s1 with error := some "No valid images to analyze.", step := Step.review }, none)
    else
      let call : AnalyzeCall := ⟨originalImages, apiKey.getD ""⟩
      match resp with
      | FetchResp.httpError t =>
          (failState s1 (if t.isEmpty then "Analysis failed" else t), some call)
      | FetchResp.stream evs =>
          match processEvents evs "" none with
          | Except.error (m, st) =>
              (failState { s1 with streamingText := st } m, some call)
          | Except.ok (st, none) =>
              (failState { s1 with streamingText := st } "No result received from AI", some call)
          | Except.ok (st, some fr) =>
              let draft := mkDraft s.images s.useEnhanced fr newId now
              ({ s1 with streamingText := st, result := some draft, step := Step.result },
               some call)

/- ## Streaming analysis server route (`/api/analyze-stream`) -/

/-- Drop one leading newline (the optional newline of the fence regexes). -/
def dropNl (l : List Char) : List Char :=
  match l with
  | [] => []
  | c :: r => if c = '\n' then r else c :: r

/-- Global replacement of the pattern (plus an optional trailing newline)
with nothing: one pass of `content.replace` with a global fence regex. -/
def stripPat (pat : List Char) (l : List Char) : List Char :=
  match l with
  | [] => []
  | c :: cs =>
    if pat.isPrefixOf (c :: cs) && !pat.isEmpty then
      stripPat pat (dropNl (cs.drop (pat.length - 1)))
    else c :: stripPat pat cs
termination_by l.length
decreasing_by
  · have key : ∀ (m : List Char) (k : Nat), (dropNl (m.drop k)).length < m.length + 1 := by
      intro m k
      have h1 : ∀ m2 : List Char, (dropNl m2).length ≤ m2.length := by
        intro m2
        unfold dropNl
        cases m2 with
        | nil => simp
        | cons a r => dsimp only; split <;> simp
      have h2 := h1 (m.drop k)
      rw [List.length_drop] at h2
      omega
    simp only [List.length_cons]
    exact key _ _
  · simp only [List.length_cons]
    omega

/-- The parsing cleanup of both analysis routes:
strip the code-fence markers and trim whitespace. -/
def stripFences (s : String) : String :=
  (String.mk (stripPat "```".data (stripPat "```json".data s.data))).trim

/-- `finalResult = { ...parsed, ...pricing, suggestedPrice: pricing.maxProfitPrice }`:
the pricing spread overrides any pricing field of the parsed object. -/
def assembleResult (p : Parsed) (pr : Pricing) : FinalResult :=
  { brand := p.brand
    category := p.category
    title := p.title
    material := p.material
    condition := p.condition
    conditionScore := p.conditionScore
    flaws := p.flaws
    description := p.description
    sellProbability := some pr.sellProbability
    quickSellPrice := some pr.quickSellPrice
    maxProfitPrice := some pr.maxProfitPrice
    suggestedPrice := some pr.maxProfitPrice }

/-- The delta events the route writes: one `{delta, done: false}` line per
truthy chunk of upstream model output. -/
def deltaEvents (chunks : List String) : List Event :=
  (chunks.filter (fun d => !d.isEmpty)).map (fun d => ⟨some d, none, none, false⟩)

/-- `fullContent`: the concatenation of the truthy deltas, in order. -/
def fullContentOf (chunks : List String) : String :=
  (chunks.filter (fun d => !d.isEmpty)).foldl (fun acc d => acc ++ d) ""

/-- What the upstream model stream did: completed normally after yielding
the given chunks, or threw after yielding them (the outer catch then runs
with the headers already flushed). -/
inductive UpstreamOutcome where
  | completed (chunks : List String)
  | failed (chunks : List String) (msg : String)
deriving DecidableEq

/-- Event emission of the `/api/analyze-stream` route. Requests with no
images or a falsy key are rejected with a 400 JSON body before any stream
exists (`none`). Otherwise the emitted event sequence is the delta events
followed by exactly one terminal event: the parse-failure error, the
assembled result, or the caught upstream error. `jsonParse` stands for the
opaque `JSON.parse` platform primitive. -/
def analyzeStreamRoute (images : List String) (apiKey : Option String)
    (jsonParse : String → Option Parsed) (up : UpstreamOutcome) (j1 j2 : ℚ) :
    Option (List Event) :=
  if images.isEmpty || !jsTruthyStr apiKey then none
  else some (match up with
    | UpstreamOutcome.failed cs m =>
        deltaEvents cs ++ [⟨none, none, some m, true⟩]
    | UpstreamOutcome.completed cs =>
        deltaEvents cs ++
          [match jsonParse (stripFences (fullContentOf cs)) with
           | none => ⟨none, none, some "Failed to parse AI response", true⟩
           | some p =>
               let pricing := generateUKPricing (jsOrStr p.brand "") (jsOrStr p.condition "") j1 j2
               ⟨none, some (assembleResult p pricing), none, true⟩])

/- ## Image-session state machine (`upload.tsx` session mutations) -/

/-- The part of the session the image-handling operations act on. -/
structure UploadState where
  images : List ImageItem
  flags : List (String × Bool)
deriving DecidableEq

/-- Adding a photo (`capturePhoto` / `pickFromGallery` capacity guard plus
the synchronous part of `addImageFromResult`): rejected at five images;
otherwise the item is appended in the pending state with its selection flag
defaulted to true, and an item without bytes is immediately marked failed. -/
def addImage (s : UploadState) (id uri : String) (b64 : Option String) :
    UploadState × Option AddError :=
  if s.images.length ≥ 5 then (s, some AddError.capacityExceeded)
  else
    let newItem : ImageItem := ⟨id, uri, b64, none, none, jsTruthyStr b64, false⟩
    let s1 : UploadState := ⟨s.images ++ [newItem], setFlag s.flags id true⟩
    if jsTruthyStr b64 then (s1, none)
    else
      (⟨s1.images.map (fun img =>
          if img.id = id then { img with enhancing := false, enhanceFailed := true } else img),
        s1.flags⟩, none)

/-- One session mutation. `add` is a successful photo addition with a fresh
random id, whose byte argument is never the empty string because both
callers pass the picker result through a falsy-to-null normalization;
the two completion operations require the targeted image to still be
pending (each enhancement request completes exactly once, and a removed
image makes the callback a no-op on `images`); `toggle` requires the
targeted image to be displayable as enhanced, which is the condition under
which the original/enhanced toggle is rendered. -/
inductive UStep : UploadState → UploadState → Prop
  | add (s : UploadState) (id uri : String) (b64 : Option String) :
      b64 ≠ some "" →
      (∀ img ∈ s.images, img.id ≠ id) →
      (addImage s id uri b64).2 = none →
      UStep s (addImage s id uri b64).1
  | enhanceOk (s : UploadState) (id conv enh : String) :
      ¬enh.isEmpty →
      (∀ img ∈ s.images, img.id = id → img.enhancing = true) →
      UStep s ⟨s.images.map (fun img =>
          if img.id = id then
            { img with originalBase64 := some conv, enhancedBase64 := some enh,
                       enhancedUri := some ("data:image/jpeg;base64," ++ enh),
                       enhancing := false }
          else img), s.flags⟩
  | enhanceFail (s : UploadState) (id : String) :
      (∀ img ∈ s.images, img.id = id → img.enhancing = true) →
      UStep s ⟨s.images.map (fun img =>
          if img.id = id then { img with enhancing := false, enhanceFailed := true }
          else img), setFlag s.flags id false⟩
  | remove (s : UploadState) (id : String) :
      UStep s ⟨s.images.filter (fun img => img.id ≠ id), eraseFlag s.flags id⟩
  | toggle (s : UploadState) (id : String) (b : Bool) :
      (∃ img ∈ s.images, img.id = id ∧ img.enhancing = false ∧
         jsTruthyStr img.enhancedUri = true) →
      UStep s ⟨s.images, setFlag s.flags id b⟩

/-- States reachable from the empty session. -/
inductive Reachable : UploadState → Prop
  | empty : Reachable ⟨[], []⟩
  | step {s s' : UploadState} : Reachable s → UStep s s' → Reachable s'

/- ## Session invariant and concrete instances -/

/-- Invariant of the image session: ids are unique; a pending image is not
failed and has no enhanced reference yet; a failed image has no enhanced
reference; a failed image that was created with bytes has its selection
flag forced off. -/
def GoodState (s : UploadState) : Prop :=
  (s.images.map (fun img => img.id)).Nodup ∧
  ∀ img ∈ s.images,
    (img.enhancing = true → img.enhanceFailed = false ∧ img.enhancedUri = none) ∧
    (img.enhanceFailed = true → img.enhancedUri = none) ∧
    (img.enhanceFailed = true → img.originalBase64.isSome = true →
      lookupFlag s.flags img.id = false)

/-- A session holding one image whose bytes were captured and whose
enhancement finished unsuccessfully (review stage, default flag). -/
def sessionOne : Session :=
  ⟨Step.review, [⟨"img1", "file-a", some "QUJD", none, none, false, false⟩], 0,
   [("img1", true)], none, none, ""⟩

/-- The event sequence of the specification example: two deltas whose
concatenation is a JSON object with brand Nike, then a bare done event. -/
def eventsNikeDone : List Event :=
  [⟨some "\x7b\"brand\":", none, none, false⟩,
   ⟨some "\"Nike\"\x7d", none, none, false⟩,
   ⟨none, none, none, true⟩]

/-- A session already holding five images. -/
def stateFive : UploadState :=
  ⟨[⟨"p1", "u1", some "b1", none, none, false, false⟩,
    ⟨"p2", "u2", some "b2", none, none, false, false⟩,
    ⟨"p3", "u3", some "b3", none, none, false, false⟩,
    ⟨"p4", "u4", some "b4", none, none, false, false⟩,
    ⟨"p5", "u5", some "b5", none, none, false, false⟩],
   [("p1", true), ("p2", true), ("p3", true), ("p4", true), ("p5", true)]⟩

/-- The state after adding one image with null bytes to the empty session. -/
def stateNull : UploadState :=
  ⟨[⟨"b", "file-b", none, none, none, false, true⟩], [("b", true)]⟩

/-- The state after adding one image with bytes and then its enhancement
request failing. -/
def stateFailed : UploadState :=
  ⟨[⟨"a", "file-a", some "QUJD", none, none, false, true⟩],
   [("a", false), ("a", true)]⟩

/-- A session whose single image carries no original bytes. -/
def sessionAllNull : Session :=
  ⟨Step.review, [⟨"n1", "file-n", none, none, none, false, true⟩], 0,
   [("n1", true)], none, none, ""⟩

/-- The stream the route emits for one chunk of unparsable output. -/
def eventsParseFail : List Event :=
  [⟨some "not json", none, none, false⟩,
   ⟨none, none, some "Failed to parse AI response", true⟩]

/- ## Helper lemmas -/

lemma quickSell_le_maxProfit (m : ℤ) (h : 3 ≤ m) :
    max 2 (jsRound ((m : ℚ) * (65/100))) ≤ m := by
  apply max_le (by omega)
  have hm : (3 : ℚ) ≤ (m : ℚ) := by exact_mod_cast h
  have hx : (m : ℚ) * (65/100) + 1/2 ≤ (m : ℚ) := by linarith
  calc jsRound ((m : ℚ) * (65/100)) = ⌊(m : ℚ) * (65/100) + 1/2⌋ := rfl
    _ ≤ ⌊(m : ℚ)⌋ := Int.floor_le_floor hx
    _ = m := Int.floor_intCast m

/- ## C2: pricing estimate bounds -/

/-- C2: for every brand, condition and value of the two jitter terms, the
pricing estimate satisfies maxProfitPrice >= 3, quickSellPrice >= 2,
quickSellPrice <= maxProfitPrice and 15 <= sellProbability <= 99. -/
theorem pricing_estimate_bounds (brand condition : String) (j1 j2 : ℚ) :
    3 ≤ (generateUKPricing brand condition j1 j2).maxProfitPrice ∧
    2 ≤ (generateUKPricing brand condition j1 j2).quickSellPrice ∧
    (generateUKPricing brand condition j1 j2).quickSellPrice ≤
      (generateUKPricing brand condition j1 j2).maxProfitPrice ∧
    15 ≤ (generateUKPricing brand condition j1 j2).sellProbability ∧
    (generateUKPricing brand condition j1 j2).sellProbability ≤ 99 := by
  unfold generateUKPricing
  dsimp only
  refine ⟨le_max_left _ _, le_max_left _ _,
    quickSell_le_maxProfit _ (le_max_left _ _), ?_, min_le_left _ _⟩
  exact le_min (by norm_num) (le_max_left _ _)

/- ## C7: image capacity -/

/-- C7: adding a photo succeeds whenever the session holds at most four
images and appends exactly one item; with five images it fails with the
capacity error and leaves the state unchanged. -/
theorem add_image_capacity (s : UploadState) (id uri : String) (b64 : Option String) :
    (s.images.length ≤ 4 →
       (addImage s id uri b64).2 = none ∧
       (addImage s id uri b64).1.images.length = s.images.length + 1) ∧
    (s.images.length = 5 →
       (addImage s id uri b64).2 = some AddError.capacityExceeded ∧
       (addImage s id uri b64).1 = s) := by
  constructor
  · intro h
    have h5 : ¬ s.images.length ≥ 5 := by omega
    unfold addImage
    by_cases hb : jsTruthyStr b64 <;> simp [h5, hb]
  · intro h
    have h5 : s.images.length ≥ 5 := by omega
    unfold addImage
    simp [h5]

/-- Witness for C7 at concrete states: the sixth add is rejected with the
state unchanged, and an add to the empty session succeeds. -/
theorem add_image_capacity_witness :
    ((addImage stateFive "p6" "u6" (some "b6")).2 = some AddError.capacityExceeded ∧
       (addImage stateFive "p6" "u6" (some "b6")).1 = stateFive) ∧
    ((addImage ⟨[], []⟩ "p1" "u1" (some "b1")).2 = none ∧
       (addImage ⟨[], []⟩ "p1" "u1" (some "b1")).1.images.length = 0 + 1) :=
  ⟨(add_image_capacity stateFive "p6" "u6" (some "b6")).2 (by decide),
   (add_image_capacity ⟨[], []⟩ "p1" "u1" (some "b1")).1 (by decide)⟩

/- ## C8: suggestedPrice equals maxProfitPrice -/

/-- C8: the draft built by the client and the result object assembled by
the analysis routes both always satisfy suggestedPrice = maxProfitPrice. -/
theorem suggested_price_eq_max_profit :
    (∀ (images : List ImageItem) (flags : List (String × Bool)) (fr : FinalResult)
       (newId : String) (now : ℤ),
       (mkDraft images flags fr newId now).suggestedPrice =
         (mkDraft images flags fr newId now).maxProfitPrice) ∧
    (∀ (p : Parsed) (pr : Pricing),
       (assembleResult p pr).suggestedPrice = some pr.maxProfitPrice ∧
       (assembleResult p pr).maxProfitPrice = some pr.maxProfitPrice) :=
  ⟨fun _ _ _ _ _ => rfl, fun _ _ => ⟨rfl, rfl⟩⟩

/- ## Characterization of the network call issued by proceedToAnalyze -/

lemma proceed_snd (s : Session) (k : Option String) (resp : FetchResp)
    (newId : String) (now : ℤ) :
    (proceedToAnalyze s k resp newId now).2 =
      if beginCheck s.images k = none then
        (if (s.images.filterMap (fun img => img.originalBase64)).isEmpty then none
         else some ⟨s.images.filterMap (fun img => img.originalBase64), k.getD ""⟩)
      else none := by
  unfold proceedToAnalyze
  cases hb : beginCheck s.images k with
  | some e => cases e <;> simp
  | none =>
    simp only [if_pos rfl]
    by_cases hi : (s.images.filterMap (fun img => img.originalBase64)).isEmpty
    · simp [hi]
    · simp only [hi, Bool.false_eq_true, if_false]
      cases resp with
      | httpError t => simp
      | stream evs =>
        cases hpe : processEvents evs "" none with
        | error e2 => cases e2 with | mk m st => simp [hpe]
        | ok p =>
          cases p with
          | mk st fr => cases fr <;> simp [hpe]

/- ## Characterization of the session proceedToAnalyze leaves behind -/

lemma proceed_result (s : Session) (k : Option String) (resp : FetchResp)
    (newId : String) (now : ℤ) :
    (proceedToAnalyze s k resp newId now).1.result = s.result ∨
    ∃ fr, (proceedToAnalyze s k resp newId now).1.result =
      some (mkDraft s.images s.useEnhanced fr newId now) := by
  unfold proceedToAnalyze
  cases hb : beginCheck s.images k with
  | some e => cases e <;> simp
  | none =>
    by_cases hi : (s.images.filterMap (fun img => img.originalBase64)).isEmpty
    · simp [hi]
    · simp only [hi, Bool.false_eq_true, if_false]
      cases resp with
      | httpError t => simp [failState]
      | stream evs =>
        cases hpe : processEvents evs "" none with
        | error e2 => cases e2 with | mk m st => simp [hpe, failState]
        | ok p =>
          cases p with
          | mk st fr =>
            cases fr with
            | none => simp [hpe, failState]
            | some fr2 => right; exact ⟨fr2, by simp [hpe]⟩

lemma proceed_stream_fail (s : Session) (k : Option String) (evs : List Event)
    (newId : String) (now : ℤ) (m st : String)
    (hb : beginCheck s.images k = none)
    (hi : (s.images.filterMap (fun img => img.originalBase64)).isEmpty = false)
    (hpe : processEvents evs "" none = Except.error (m, st)) :
    (proceedToAnalyze s k (FetchResp.stream evs) newId now).1 =
      failState { s with step := Step.analyzing, error := none, streamingText := st } m := by
  unfold proceedToAnalyze
  rw [hb]
  simp [hi, hpe]

lemma proceed_stream_no_result (s : Session) (k : Option String) (evs : List Event)
    (newId : String) (now : ℤ) (st : String)
    (hb : beginCheck s.images k = none)
    (hi : (s.images.filterMap (fun img => img.originalBase64)).isEmpty = false)
    (hpe : processEvents evs "" none = Except.ok (st, none)) :
    (proceedToAnalyze s k (FetchResp.stream evs) newId now).1 =
      failState { s with step := Step.analyzing, error := none, streamingText := st }
        "No result received from AI" := by
  unfold proceedToAnalyze
  rw [hb]
  simp [hi, hpe]

/- ## Stream-consumption lemmas -/

lemma processEvents_append (l1 l2 : List Event) (st : String) (fr : Option FinalResult) :
    processEvents (l1 ++ l2) st fr =
      match processEvents l1 st fr with
      | Except.ok (st2, fr2) => processEvents l2 st2 fr2
      | Except.error e => Except.error e := by
  induction l1 generalizing st fr with
  | nil => simp [processEvents]
  | cons e rest ih =>
    cases he : e.error with
    | none => simp [processEvents, he, ih]
    | some m =>
      by_cases hm : m.isEmpty <;> by_cases hj : substrOf "JSON" m <;>
        simp [processEvents, he, hm, hj, ih]

lemma processEvents_deltas (cs : List String) (st : String) (fr : Option FinalResult) :
    ∃ st2, processEvents (deltaEvents cs) st fr = Except.ok (st2, fr) := by
  induction cs generalizing st with
  | nil => exact ⟨st, rfl⟩
  | cons c cs ih =>
    by_cases hc : c.isEmpty
    · simpa [deltaEvents, hc] using ih st
    · have hde : deltaEvents (c :: cs) =
          ⟨some c, none, none, false⟩ :: deltaEvents cs := by
        simp [deltaEvents, hc]
      rw [hde]
      simpa [processEvents, applyEvent, hc] using ih (st ++ c)

lemma processEvents_done_no_result (cs : List String) :
    ∃ st2, processEvents (deltaEvents cs ++ [⟨none, none, none, true⟩]) "" none =
      Except.ok (st2, none) := by
  obtain ⟨st2, h⟩ := processEvents_deltas cs "" none
  refine ⟨st2, ?_⟩
  rw [processEvents_append, h]
  simp [processEvents, applyEvent]

lemma processEvents_error_terminal (cs : List String) (m : String)
    (hm : m.isEmpty = false) (hj : substrOf "JSON" m = false) :
    ∃ st2, processEvents (deltaEvents cs ++ [⟨none, none, some m, true⟩]) "" none =
      Except.error (m, st2) := by
  obtain ⟨st2, h⟩ := processEvents_deltas cs "" none
  refine ⟨st2, ?_⟩
  rw [processEvents_append, h]
  simp [processEvents, hm, hj]

lemma beginCheck_none_truthy (images : List ImageItem) (k : Option String)
    (h : beginCheck images k = none) : jsTruthyStr k = true := by
  unfold beginCheck at h
  split_ifs at h with h1 h2 h3
  · exact h3

lemma beginCheck_none_nonempty (images : List ImageItem) (k : Option String)
    (h : beginCheck images k = none) : images.isEmpty = false := by
  unfold beginCheck at h
  split_ifs at h with h1 h2 h3
  · simpa using h1

/- ## C3: beginAnalysis precondition failures -/

/-- C3: starting an analysis fails with the enhancement-pending alert
exactly when some image is still enhancing; it fails with the silent
no-images return exactly when the session is empty; on a non-empty,
fully-enhanced session with a falsy key it fails with the missing
credential error; and any precondition failure means no network call. -/
theorem begin_analysis_preconditions :
    (∀ (images : List ImageItem) (k : Option String),
       beginCheck images k = some BeginError.enhancementPending ↔
         ∃ img ∈ images, img.enhancing = true) ∧
    (∀ (images : List ImageItem) (k : Option String),
       beginCheck images k = some BeginError.noImages ↔ images = []) ∧
    (∀ (images : List ImageItem) (k : Option String),
       images ≠ [] → (∀ img ∈ images, img.enhancing = false) →
       jsTruthyStr k = false →
       beginCheck images k = some BeginError.missingCredential) ∧
    (∀ (s : Session) (k : Option String) (resp : FetchResp) (newId : String) (now : ℤ),
       beginCheck s.images k ≠ none →
       (proceedToAnalyze s k resp newId now).2 = none) := by
  refine ⟨?_, ?_, ?_, ?_⟩
  · intro images k
    unfold beginCheck
    split_ifs with h1 h2 h3 <;>
      simp_all [List.isEmpty_iff, List.any_eq_true]
  · intro images k
    unfold beginCheck
    split_ifs with h1 h2 h3 <;>
      simp_all [List.isEmpty_iff]
  · intro images k hne hall hk
    unfold beginCheck
    have h1 : images.isEmpty = false := by simpa [List.isEmpty_iff] using hne
    have h2 : images.any (fun img => img.enhancing) = false := by
      simp only [List.any_eq_false]
      intro img hmem
      simp [hall img hmem]
    simp [h1, h2, hk]
  · intro s k resp newId now hb
    rw [proceed_snd]
    simp [hb]

/-- Witness for C3 at concrete sessions: a pending image gives the pending
failure, the empty session the no-images failure, a missing key the
credential failure, and the credential failure issues no network call. -/
theorem begin_analysis_preconditions_witness :
    beginCheck [⟨"q", "u", some "b", none, none, true, false⟩] (some "sk") =
      some BeginError.enhancementPending ∧
    beginCheck [] (some "sk") = some BeginError.noImages ∧
    beginCheck sessionOne.images none = some BeginError.missingCredential ∧
    (proceedToAnalyze sessionOne none (FetchResp.httpError "x") "d" 0).2 = none :=
  ⟨(begin_analysis_preconditions.1 [⟨"q", "u", some "b", none, none, true, false⟩]
      (some "sk")).mpr ⟨⟨"q", "u", some "b", none, none, true, false⟩, by simp, rfl⟩,
   (begin_analysis_preconditions.2.1 [] (some "sk")).mpr rfl,
   begin_analysis_preconditions.2.2.1 sessionOne.images none (by decide) (by decide) rfl,
   begin_analysis_preconditions.2.2.2 sessionOne none (FetchResp.httpError "x") "d" 0
     (by decide)⟩

/- ## C9: exactly one terminal event, and it comes last -/

/-- C9: every event sequence the streaming route emits is a block of
non-terminal delta events followed by exactly one terminal done event,
which carries a result or an error. -/
theorem stream_exactly_one_terminal (images : List String) (apiKey : Option String)
    (jsonParse : String → Option Parsed) (up : UpstreamOutcome) (j1 j2 : ℚ)
    (l : List Event)
    (h : analyzeStreamRoute images apiKey jsonParse up j1 j2 = some l) :
    ∃ ds t, l = ds ++ [t] ∧ t.done = true ∧
      (t.result.isSome = true ∨ t.error.isSome = true) ∧
      ∀ e ∈ ds, e.done = false := by
  unfold analyzeStreamRoute at h
  by_cases hg : (images.isEmpty || !jsTruthyStr apiKey) = true
  · simp [hg] at h
  · rw [if_neg hg] at h
    have hdel : ∀ cs : List String, ∀ e ∈ deltaEvents cs, e.done = false := by
      intro cs e he
      simp only [deltaEvents, List.mem_map] at he
      obtain ⟨d, _, rfl⟩ := he
      rfl
    cases up with
    | failed cs m =>
      refine ⟨deltaEvents cs, ⟨none, none, some m, true⟩, ?_, rfl, Or.inr rfl, hdel cs⟩
      simpa using h.symm
    | completed cs =>
      dsimp only at h
      cases hp : jsonParse (stripFences (fullContentOf cs)) with
      | none =>
        rw [hp] at h
        exact ⟨deltaEvents cs, _, (Option.some_inj.mp h).symm, rfl, Or.inr rfl, hdel cs⟩
      | some p =>
        rw [hp] at h
        exact ⟨deltaEvents cs, _, (Option.some_inj.mp h).symm, rfl, Or.inl rfl, hdel cs⟩

/-- Witness for C9: the route applied to one image, a key, an unparsable
completion and zero jitter emits one delta and the terminal error event. -/
theorem stream_exactly_one_terminal_witness :
    ∃ ds t,
      ([⟨some "abc", none, none, false⟩,
        ⟨none, none, some "Failed to parse AI response", true⟩] : List Event) =
          ds ++ [t] ∧ t.done = true ∧
      (t.result.isSome = true ∨ t.error.isSome = true) ∧
      ∀ e ∈ ds, e.done = false :=
  stream_exactly_one_terminal ["i"] (some "k") (fun _ => none)
    (UpstreamOutcome.completed ["abc"]) 0 0 _ rfl

/- ## C5: analysis always submits the original bytes -/

/-- C5: whenever a network call is issued, its byte list is exactly the
original bytes of the session images, each submitted byte buffer is some
image's original bytes, the call is unchanged under any change of the
per-image selection flags, and the flags only determine the display
references persisted in the resulting draft. -/
theorem submitted_bytes_are_original (s : Session) (k : Option String)
    (resp : FetchResp) (newId : String) (now : ℤ) (c : AnalyzeCall)
    (h : (proceedToAnalyze s k resp newId now).2 = some c) :
    c.images = s.images.filterMap (fun img => img.originalBase64) ∧
    (∀ b ∈ c.images, ∃ img ∈ s.images, img.originalBase64 = some b) ∧
    (∀ flags : List (String × Bool),
       (proceedToAnalyze { s with useEnhanced := flags } k resp newId now).2 = some c) ∧
    (s.result = none → ∀ d : ListingDraft,
       (proceedToAnalyze s k resp newId now).1.result = some d →
       d.imageUris = allUris s.images s.useEnhanced) := by
  rw [proceed_snd] at h
  by_cases hb : beginCheck s.images k = none
  · rw [if_pos hb] at h
    by_cases hi : (s.images.filterMap (fun img => img.originalBase64)).isEmpty
    · simp [hi] at h
    · rw [if_neg hi] at h
      have hc : c = ⟨s.images.filterMap (fun img => img.originalBase64), k.getD ""⟩ :=
        (Option.some_inj.mp h).symm
      subst hc
      refine ⟨rfl, ?_, ?_, ?_⟩
      · intro b hbmem
        obtain ⟨img, hmem, himg⟩ := List.mem_filterMap.mp hbmem
        exact ⟨img, hmem, himg⟩
      · intro flags
        rw [proceed_snd]
        simp only [Session.images] at *
        simp [hb, hi]
      · intro hres d hd
        rcases proceed_result s k resp newId now with hcase | ⟨fr, hcase⟩
        · rw [hcase, hres] at hd
          exact absurd hd (by simp)
        · rw [hcase] at hd
          have : d = mkDraft s.images s.useEnhanced fr newId now :=
            (Option.some_inj.mp hd).symm
          subst this
          rfl
  · rw [if_neg hb] at h
    exact absurd h (by simp)

/-- Witness for C5: the one-image session with a key issues the call
carrying exactly the original base64 buffer. -/
theorem submitted_bytes_are_original_witness :
    (proceedToAnalyze sessionOne (some "sk") (FetchResp.httpError "boom") "d" 0).2 =
      some ⟨["QUJD"], "sk"⟩ ∧
    (⟨["QUJD"], "sk"⟩ : AnalyzeCall).images =
      sessionOne.images.filterMap (fun img => img.originalBase64) :=
  ⟨rfl,
   (submitted_bytes_are_original sessionOne (some "sk") (FetchResp.httpError "boom")
      "d" 0 ⟨["QUJD"], "sk"⟩ rfl).1⟩

/- ## C10: sessions whose images all lack original bytes -/

/-- C10: when the precondition checks pass but every image lacks original
bytes, the run sets the error "No valid images to analyze.", returns the
stage to review, makes no network request and leaves the images unchanged;
and in general images without bytes are excluded from the submitted list
while the persisted draft still carries one display reference per session
image. -/
theorem no_valid_images_behavior :
    (∀ (s : Session) (k : Option String) (resp : FetchResp) (newId : String) (now : ℤ),
       beginCheck s.images k = none →
       (∀ img ∈ s.images, img.originalBase64 = none) →
       (proceedToAnalyze s k resp newId now).1.error = some "No valid images to analyze." ∧
       (proceedToAnalyze s k resp newId now).1.step = Step.review ∧
       (proceedToAnalyze s k resp newId now).2 = none ∧
       (proceedToAnalyze s k resp newId now).1.images = s.images) ∧
    (∀ (s : Session) (k : Option String) (resp : FetchResp) (newId : String) (now : ℤ)
       (c : AnalyzeCall) (d : ListingDraft),
       (proceedToAnalyze s k resp newId now).2 = some c →
       s.result = none →
       c.images = s.images.filterMap (fun img => img.originalBase64) ∧
       ((proceedToAnalyze s k resp newId now).1.result = some d →
         d.imageUris.length = s.images.length)) := by
  constructor
  · intro s k resp newId now hb hnull
    have hfm : s.images.filterMap (fun img => img.originalBase64) = [] :=
      List.filterMap_eq_nil_iff.mpr hnull
    unfold proceedToAnalyze
    rw [hb]
    simp [hfm]
  · intro s k resp newId now c d hcall hres
    rw [proceed_snd] at hcall
    by_cases hb : beginCheck s.images k = none
    · rw [if_pos hb] at hcall
      by_cases hi : (s.images.filterMap (fun img => img.originalBase64)).isEmpty
      · simp [hi] at hcall
      · rw [if_neg hi] at hcall
        have hc : c = ⟨s.images.filterMap (fun img => img.originalBase64), k.getD ""⟩ :=
          (Option.some_inj.mp hcall).symm
        subst hc
        refine ⟨rfl, ?_⟩
        intro hd
        rcases proceed_result s k resp newId now with hcase | ⟨fr, hcase⟩
        · rw [hcase, hres] at hd
          exact absurd hd (by simp)
        · rw [hcase] at hd
          have hdm : d = mkDraft s.images s.useEnhanced fr newId now :=
            (Option.some_inj.mp hd).symm
          subst hdm
          simp [mkDraft, allUris]
    · rw [if_neg hb] at hcall
      exact absurd hcall (by simp)

/-- Witness for C10: the session whose single image has no bytes errors
with the out-of-taxonomy message and makes no request; in the submitting
case the call excludes nothing because the image has bytes. -/
theorem no_valid_images_behavior_witness :
    ((proceedToAnalyze sessionAllNull (some "sk") (FetchResp.httpError "x") "d" 0).1.error =
        some "No valid images to analyze." ∧
     (proceedToAnalyze sessionAllNull (some "sk") (FetchResp.httpError "x") "d" 0).1.step =
        Step.review ∧
     (proceedToAnalyze sessionAllNull (some "sk") (FetchResp.httpError "x") "d" 0).2 = none ∧
     (proceedToAnalyze sessionAllNull (some "sk") (FetchResp.httpError "x") "d" 0).1.images =
        sessionAllNull.images) ∧
    (⟨["QUJD"], "sk"⟩ : AnalyzeCall).images =
      sessionOne.images.filterMap (fun img => img.originalBase64) :=
  ⟨(no_valid_images_behavior.1 sessionAllNull (some "sk") (FetchResp.httpError "x") "d" 0
      (by decide) (by decide)),
   (no_valid_images_behavior.2 sessionOne (some "sk") (FetchResp.httpError "x") "d" 0
      ⟨["QUJD"], "sk"⟩
      ⟨"", "", [], "", "", "", "", "", "", "", "", 0, 0, 0, 0, 0⟩ rfl rfl).1⟩

lemma failState_fields (s : Session) (m : String) (hm : m.isEmpty = false) :
    (failState s m).error = some (errDisplay m) ∧
    (failState s m).step = Step.review ∧
    (failState s m).images = s.images ∧
    (failState s m).result = s.result := by
  unfold failState
  simp [hm]

/- ## C1: a done event without a result payload -/

/-- C1 (amended): when the stream ends with a done event that carries no
result payload, the run does not reconstruct the result from the
accumulated deltas; it fails with "No result received from AI", returning
the stage to review and leaving the session result unchanged. -/
theorem stream_missing_result_fails (s : Session) (k : Option String)
    (cs : List String) (newId : String) (now : ℤ)
    (hb : beginCheck s.images k = none)
    (hi : (s.images.filterMap (fun img => img.originalBase64)).isEmpty = false) :
    (proceedToAnalyze s k
       (FetchResp.stream (deltaEvents cs ++ [⟨none, none, none, true⟩])) newId now).1.step =
      Step.review ∧
    (proceedToAnalyze s k
       (FetchResp.stream (deltaEvents cs ++ [⟨none, none, none, true⟩])) newId now).1.error =
      some "No result received from AI" ∧
    (proceedToAnalyze s k
       (FetchResp.stream (deltaEvents cs ++ [⟨none, none, none, true⟩])) newId now).1.result =
      s.result := by
  obtain ⟨st2, hpe⟩ := processEvents_done_no_result cs
  rw [proceed_stream_no_result s k _ newId now st2 hb hi hpe]
  obtain ⟨he, hs, _, hr⟩ :=
    failState_fields { s with step := Step.analyzing, error := none, streamingText := st2 }
      "No result received from AI" (by decide)
  refine ⟨hs, ?_, hr⟩
  rw [he]
  decide

/-- Witness for C1: the amended behavior at the two Nike deltas of the
specification example. -/
theorem stream_missing_result_fails_witness :
    (proceedToAnalyze sessionOne (some "sk")
       (FetchResp.stream (deltaEvents ["\x7b\"brand\":", "\"Nike\"\x7d"] ++
         [⟨none, none, none, true⟩])) "d1" 0).1.error =
      some "No result received from AI" :=
  (stream_missing_result_fails sessionOne (some "sk") ["\x7b\"brand\":", "\"Nike\"\x7d"]
     "d1" 0 (by decide) (by decide)).2.1

/-- Counterexample for C1 as stated: on the specification example events
(deltas concatenating to a Nike JSON object, then a bare done event) the
run produces no draft at all — it fails with "No result received from AI"
instead of a result with brand Nike. -/
theorem stream_missing_result_cex :
    (proceedToAnalyze sessionOne (some "sk") (FetchResp.stream eventsNikeDone) "d1" 0).1.result
      = none ∧
    (proceedToAnalyze sessionOne (some "sk") (FetchResp.stream eventsNikeDone) "d1" 0).1.error
      = some "No result received from AI" ∧
    (proceedToAnalyze sessionOne (some "sk") (FetchResp.stream eventsNikeDone) "d1" 0).1.step
      = Step.review :=
  ⟨rfl, rfl, rfl⟩

/- ## C4: malformed model output -/

/-- C4: when the raw streamed text fails to parse after fence stripping and
trimming, the terminal event carries the parse failure and the client run
records "Failed to parse AI response" as the last error, returns the stage
to review, and leaves the images and the session result untouched. -/
theorem malformed_response_behavior (s : Session) (k : Option String)
    (cs : List String) (jsonParse : String → Option Parsed) (j1 j2 : ℚ)
    (newId : String) (now : ℤ) (evs : List Event)
    (hb : beginCheck s.images k = none)
    (hi : (s.images.filterMap (fun img => img.originalBase64)).isEmpty = false)
    (hparse : jsonParse (stripFences (fullContentOf cs)) = none)
    (hroute : analyzeStreamRoute (s.images.filterMap (fun img => img.originalBase64)) k
        jsonParse (UpstreamOutcome.completed cs) j1 j2 = some evs) :
    (proceedToAnalyze s k (FetchResp.stream evs) newId now).1.step = Step.review ∧
    (proceedToAnalyze s k (FetchResp.stream evs) newId now).1.error =
      some "Failed to parse AI response" ∧
    (proceedToAnalyze s k (FetchResp.stream evs) newId now).1.images = s.images ∧
    (proceedToAnalyze s k (FetchResp.stream evs) newId now).1.result = s.result := by
  have hk := beginCheck_none_truthy s.images k hb
  unfold analyzeStreamRoute at hroute
  rw [hi, hk] at hroute
  simp only [Bool.not_true, Bool.or_false, Bool.false_eq_true, if_false] at hroute
  rw [hparse] at hroute
  have hevs : evs = deltaEvents cs ++
      [⟨none, none, some "Failed to parse AI response", true⟩] :=
    (Option.some_inj.mp hroute).symm
  subst hevs
  obtain ⟨st2, hpe⟩ :=
    processEvents_error_terminal cs "Failed to parse AI response" (by decide) (by decide)
  rw [proceed_stream_fail s k _ newId now _ st2 hb hi hpe]
  obtain ⟨he, hs, him, hr⟩ :=
    failState_fields { s with step := Step.analyzing, error := none, streamingText := st2 }
      "Failed to parse AI response" (by decide)
  refine ⟨hs, ?_, him, hr⟩
  rw [he]
  decide

/-- Witness for C4 at a concrete unparsable completion: the one-image
session with a key, one chunk of unparsable output, and the parse
primitive rejecting every string. -/
theorem malformed_response_behavior_witness :
    (proceedToAnalyze sessionOne (some "sk") (FetchResp.stream eventsParseFail) "d" 0).1.step =
      Step.review ∧
    (proceedToAnalyze sessionOne (some "sk") (FetchResp.stream eventsParseFail) "d" 0).1.error =
      some "Failed to parse AI response" ∧
    (proceedToAnalyze sessionOne (some "sk") (FetchResp.stream eventsParseFail) "d" 0).1.images =
      sessionOne.images ∧
    (proceedToAnalyze sessionOne (some "sk") (FetchResp.stream eventsParseFail) "d" 0).1.result =
      sessionOne.result :=
  malformed_response_behavior sessionOne (some "sk") ["not json"] (fun _ => none) 0 0
    "d" 0 eventsParseFail (by decide) (by decide) rfl rfl

/- ## Selection-flag lemmas -/

lemma lookupFlag_set_self (m : List (String × Bool)) (id : String) (b : Bool) :
    lookupFlag (setFlag m id b) id = b := by
  simp [lookupFlag, setFlag, List.lookup]

lemma lookupFlag_set_ne (m : List (String × Bool)) (id id2 : String) (b : Bool)
    (h : id2 ≠ id) :
    lookupFlag (setFlag m id b) id2 = lookupFlag m id2 := by
  simp [lookupFlag, setFlag, List.lookup, beq_false_of_ne h]

lemma lookupFlag_erase_ne (m : List (String × Bool)) (id id2 : String)
    (h : id2 ≠ id) :
    lookupFlag (eraseFlag m id) id2 = lookupFlag m id2 := by
  induction m with
  | nil => rfl
  | cons p t ih =>
    obtain ⟨q, v⟩ := p
    by_cases hq : q = id
    · have h2q : id2 ≠ q := fun hh => h (hh.trans hq)
      have he : eraseFlag ((q, v) :: t) id = eraseFlag t id := by
        simp [eraseFlag, hq]
      rw [he, ih]
      simp [lookupFlag, List.lookup, beq_false_of_ne h2q]
    · have he : eraseFlag ((q, v) :: t) id = (q, v) :: eraseFlag t id := by
        simp [eraseFlag, hq]
      rw [he]
      by_cases h2 : id2 = q
      · subst h2
        simp [lookupFlag, List.lookup]
      · simp only [lookupFlag, List.lookup, beq_false_of_ne h2]
        exact ih

/- ## State-machine helper lemmas -/

lemma map_upd_id (l : List ImageItem) (id : String) (g : ImageItem → ImageItem)
    (hl : ∀ img ∈ l, img.id ≠ id) :
    l.map (fun img => if img.id = id then g img else img) = l := by
  induction l with
  | nil => rfl
  | cons a t ih =>
    have ha : a.id ≠ id := hl a (List.mem_cons_self a t)
    simp only [List.map_cons, if_neg ha]
    rw [ih (fun img hm => hl img (List.mem_cons_of_mem a hm))]

lemma addImage_not_full (s : UploadState) (id uri : String) (b64 : Option String)
    (hok : (addImage s id uri b64).2 = none) : s.images.length < 5 := by
  by_contra hge
  rw [Nat.not_lt] at hge
  unfold addImage at hok
  simp [Nat.le_of_lt, (by omega : s.images.length ≥ 5)] at hok

lemma addImage_shape_true (s : UploadState) (id uri : String) (b64 : Option String)
    (hlen : s.images.length < 5) (ht : jsTruthyStr b64 = true) :
    (addImage s id uri b64).1 =
      ⟨s.images ++ [⟨id, uri, b64, none, none, true, false⟩], setFlag s.flags id true⟩ := by
  unfold addImage
  simp [Nat.not_le.mpr hlen, ht]

lemma addImage_shape_false (s : UploadState) (id uri : String) (b64 : Option String)
    (hlen : s.images.length < 5) (ht : jsTruthyStr b64 = false)
    (hfresh : ∀ img ∈ s.images, img.id ≠ id) :
    (addImage s id uri b64).1 =
      ⟨s.images ++ [⟨id, uri, b64, none, none, false, true⟩], setFlag s.flags id true⟩ := by
  unfold addImage
  simp only [Nat.not_le.mpr hlen, if_false, ht, Bool.false_eq_true]
  congr 1
  rw [List.map_append, map_upd_id s.images id _ hfresh]
  simp [ht]

lemma goodState_step {s s2 : UploadState} (h : GoodState s) (hst : UStep s s2) :
    GoodState s2 := by
  obtain ⟨hnd, hinv⟩ := h
  cases hst with
  | add id uri b64 hb64 hfresh hok =>
    have hlen := addImage_not_full s id uri b64 hok
    have hnd2 : ∀ newP : ImageItem, newP.id = id →
        ((s.images ++ [newP]).map (fun img => img.id)).Nodup := by
      intro newP hP
      rw [List.map_append, List.nodup_append]
      refine ⟨hnd, by simp, ?_⟩
      intro a ha hbmem
      simp only [List.map_cons, List.map_nil, List.mem_cons, List.not_mem_nil,
        or_false] at hbmem
      obtain ⟨img, hmem, rfl⟩ := List.mem_map.mp ha
      exact hfresh img hmem (hbmem.trans hP)
    have hold_ok : ∀ img ∈ s.images,
        (img.enhancing = true → img.enhanceFailed = false ∧ img.enhancedUri = none) ∧
        (img.enhanceFailed = true → img.enhancedUri = none) ∧
        (img.enhanceFailed = true → img.originalBase64.isSome = true →
          lookupFlag (setFlag s.flags id true) img.id = false) := by
      intro img hmem
      have h3 := hinv img hmem
      refine ⟨h3.1, h3.2.1, ?_⟩
      intro hf hsome
      rw [lookupFlag_set_ne s.flags id img.id true (hfresh img hmem)]
      exact h3.2.2 hf hsome
    cases hbt : jsTruthyStr b64 with
    | false =>
      have hb64n : b64 = none := by
        cases b64 with
        | none => rfl
        | some x =>
          have hx : x = "" := by simpa [jsTruthyStr, String.isEmpty_iff] using hbt
          exact absurd (by rw [hx]) hb64
      rw [addImage_shape_false s id uri b64 hlen hbt hfresh]
      refine ⟨hnd2 _ rfl, ?_⟩
      intro img hmem
      rcases List.mem_append.mp hmem with hold | hnew
      · exact hold_ok img hold
      · simp only [List.mem_singleton] at hnew
        subst hnew
        refine ⟨by simp, by simp, ?_⟩
        intro _ hsome
        rw [hb64n] at hsome
        simp at hsome
    | true =>
      rw [addImage_shape_true s id uri b64 hlen hbt]
      refine ⟨hnd2 _ rfl, ?_⟩
      intro img hmem
      rcases List.mem_append.mp hmem with hold | hnew
      · exact hold_ok img hold
      · simp only [List.mem_singleton] at hnew
        subst hnew
        exact ⟨fun _ => ⟨rfl, rfl⟩, by simp, by simp⟩
  | enhanceOk id conv enh henh hpend =>
    refine ⟨?_, ?_⟩
    · have hids : ((s.images.map (fun img =>
          if img.id = id then
            { img with originalBase64 := some conv, enhancedBase64 := some enh,
                       enhancedUri := some ("data:image/jpeg;base64," ++ enh),
                       enhancing := false }
          else img)).map (fun img => img.id)) = s.images.map (fun img => img.id) := by
        rw [List.map_map]
        apply List.map_eq_map_iff.mpr
        intro a _
        by_cases hid : a.id = id <;> simp [hid]
      try dsimp only
      rw [hids]
      exact hnd
    · intro img2 hmem2
      obtain ⟨img, hmem, rfl⟩ := List.mem_map.mp hmem2
      by_cases hid : img.id = id
      · have hpe := hpend img hmem hid
        obtain ⟨hff, _⟩ := (hinv img hmem).1 hpe
        simp only [if_pos hid]
        refine ⟨by simp, ?_, ?_⟩
        · intro hf
          exact absurd hf (by simp [hff])
        · intro hf _
          exact absurd hf (by simp [hff])
      · simp only [if_neg hid]
        exact hinv img hmem
  | enhanceFail id hpend =>
    refine ⟨?_, ?_⟩
    · have hids : ((s.images.map (fun img =>
          if img.id = id then { img with enhancing := false, enhanceFailed := true }
          else img)).map (fun img => img.id)) = s.images.map (fun img => img.id) := by
        rw [List.map_map]
        apply List.map_eq_map_iff.mpr
        intro a _
        by_cases hid : a.id = id <;> simp [hid]
      try dsimp only
      rw [hids]
      exact hnd
    · intro img2 hmem2
      obtain ⟨img, hmem, rfl⟩ := List.mem_map.mp hmem2
      by_cases hid : img.id = id
      · have hpe := hpend img hmem hid
        obtain ⟨hff, hfu⟩ := (hinv img hmem).1 hpe
        simp only [if_pos hid]
        refine ⟨by simp, fun _ => hfu, ?_⟩
        intro _ _
        show lookupFlag (setFlag s.flags id false) img.id = false
        rw [hid]
        exact lookupFlag_set_self s.flags id false
      · simp only [if_neg hid]
        have h3 := hinv img hmem
        refine ⟨h3.1, h3.2.1, ?_⟩
        intro hf hsome
        show lookupFlag (setFlag s.flags id false) img.id = false
        rw [lookupFlag_set_ne s.flags id img.id false hid]
        exact h3.2.2 hf hsome
  | remove id =>
    refine ⟨?_, ?_⟩
    · have hsub :
          List.Sublist ((s.images.filter (fun img => img.id ≠ id)).map (fun img => img.id))
            (s.images.map (fun img => img.id)) :=
        List.Sublist.map _ (List.filter_sublist s.images)
      exact List.Nodup.sublist hsub hnd
    · intro img hmem
      have hm2 := List.mem_filter.mp hmem
      have hne : img.id ≠ id := by simpa using hm2.2
      have h3 := hinv img hm2.1
      refine ⟨h3.1, h3.2.1, ?_⟩
      intro hf hsome
      show lookupFlag (eraseFlag s.flags id) img.id = false
      rw [lookupFlag_erase_ne s.flags id img.id hne]
      exact h3.2.2 hf hsome
  | toggle id b hex =>
    refine ⟨hnd, ?_⟩
    intro img hmem
    have h3 := hinv img hmem
    refine ⟨h3.1, h3.2.1, ?_⟩
    intro hf hsome
    by_cases hid : img.id = id
    · obtain ⟨img0, hmem0, hid0, henh0, huri0⟩ := hex
      have heq : img0 = img :=
        List.inj_on_of_nodup_map hnd hmem0 hmem (by rw [hid0, hid])
      subst heq
      have huri := h3.2.1 hf
      rw [huri] at huri0
      simp [jsTruthyStr] at huri0
    · show lookupFlag (setFlag s.flags id b) img.id = false
      rw [lookupFlag_set_ne s.flags id img.id b hid]
      exact h3.2.2 hf hsome

lemma reachable_goodState {s : UploadState} (h : Reachable s) : GoodState s := by
  induction h with
  | empty => exact ⟨List.nodup_nil, by simp⟩
  | step hr hst ih => exact goodState_step ih hst

lemma reachable_stateFailed : Reachable stateFailed := by
  have h1 : Reachable (addImage ⟨[], []⟩ "a" "file-a" (some "QUJD")).1 :=
    Reachable.step Reachable.empty
      (UStep.add ⟨[], []⟩ "a" "file-a" (some "QUJD") (by decide) (by simp) (by decide))
  have h2 : (addImage ⟨[], []⟩ "a" "file-a" (some "QUJD")).1 =
      ⟨[⟨"a", "file-a", some "QUJD", none, none, true, false⟩], [("a", true)]⟩ := by decide
  rw [h2] at h1
  exact Reachable.step h1
    (UStep.enhanceFail ⟨[⟨"a", "file-a", some "QUJD", none, none, true, false⟩],
      [("a", true)]⟩ "a" (by decide))

lemma reachable_stateNull : Reachable stateNull := by
  have h1 : Reachable (addImage ⟨[], []⟩ "b" "file-b" none).1 :=
    Reachable.step Reachable.empty
      (UStep.add ⟨[], []⟩ "b" "file-b" none (by decide) (by simp) (by decide))
  have h2 : (addImage ⟨[], []⟩ "b" "file-b" none).1 = stateNull := by decide
  rw [h2] at h1
  exact h1

/- ## C6: the selection flag of a failed image -/

/-- C6 (amended): in every reachable session state, every image whose
enhancement failed and which was created with original bytes has its
selection flag off. An image created with null bytes keeps its default
flag (the counterexample), but it also has no enhanced reference, so the
flag can never select an enhanced display for it. -/
theorem failed_image_selection_flag (s : UploadState) (h : Reachable s) :
    ∀ img ∈ s.images, img.enhanceFailed = true → img.originalBase64.isSome = true →
      lookupFlag s.flags img.id = false := by
  intro img hmem hf hsome
  exact ((reachable_goodState h).2 img hmem).2.2 hf hsome

/-- Witness for C6: in the reachable state where the only image's
enhancement request failed, its selection flag is off. -/
theorem failed_image_selection_flag_witness :
    lookupFlag stateFailed.flags "a" = false :=
  failed_image_selection_flag stateFailed reachable_stateFailed
    ⟨"a", "file-a", some "QUJD", none, none, false, true⟩ (by simp [stateFailed]) rfl rfl

/-- Counterexample for C6 as stated: the reachable state obtained by adding
one image with null bytes holds a failed image whose selection flag is
still true — the null-bytes failure path never forces the flag off. -/
theorem failed_image_selection_flag_cex :
    Reachable stateNull ∧
    ∃ img ∈ stateNull.images, img.enhanceFailed = true ∧
      lookupFlag stateNull.flags img.id = true :=
  ⟨reachable_stateNull,
   ⟨⟨"b", "file-b", none, none, none, false, true⟩, by simp [stateNull], rfl, rfl⟩⟩
